import Mathlib

/-!
Verification development for the room-relay system (web/server.js,
web/vr_client.js, web/main3d-enhanced.js, web/remote_link.js).

The JavaScript sources are shallowly embedded as executable Lean
definitions:

* JS strings are Lean `String`s (sequences of characters); for the room
  code generator, where character level slicing matters, we work on
  `List Char` and convert with `List.asString`.
* The JS `Map` of rooms and the set of live sockets are embedded as
  association lists (`alookup` / `aset` / `aremove` below mirror
  `Map.get` / `Map.set` / `Map.delete`).
* A sparse JS array (`chunkBuffer[index] = data` grows the array and
  leaves holes) is embedded as `List (Option String)` with `jsSet` /
  `jsGet`; `Array.prototype.join` renders holes as the empty string.
* Asynchronous callbacks (socket events, `setTimeout` timers) are
  embedded as events of explicit step functions; each handler returns
  the updated state together with the list of emitted side effects
  (messages sent, sockets closed).
* The serialized length of a structured text message is abstracted as
  the `wireLen` field carried by the message (it only feeds the byte
  counters, about which nothing fine-grained is claimed).
-/

namespace SeedRelay

/-! ## Association lists (JS Map / object field access) -/

def alookup {α β : Type} [DecidableEq α] : List (α × β) → α → Option β
  | [], _ => none
  | (k1, v1) :: t, k => if k1 = k then some v1 else alookup t k

def aset {α β : Type} [DecidableEq α] : List (α × β) → α → β → List (α × β)
  | [], k, v => [(k, v)]
  | (k1, v1) :: t, k, v => if k1 = k then (k, v) :: t else (k1, v1) :: aset t k v

def aremove {α β : Type} [DecidableEq α] : List (α × β) → α → List (α × β)
  | [], _ => []
  | (k1, v1) :: t, k => if k1 = k then aremove t k else (k1, v1) :: aremove t k

/-! ## Sparse JS arrays (vr_client.js chunkBuffer)

In JavaScript, `b[i] = v` on an array grows it to length `max (length b)
(i+1)`, filling the gap with holes; reading a hole or reading past the
end yields `undefined`; `join("")` renders holes as "". -/

def jsSet : List (Option String) → Nat → String → List (Option String)
  | [], 0, v => [some v]
  | [], i + 1, v => none :: jsSet [] i v
  | _ :: t, 0, v => some v :: t
  | h :: t, i + 1, v => h :: jsSet t i v

def jsGet : List (Option String) → Nat → Option String
  | [], _ => none
  | h :: _, 0 => h
  | _ :: t, i + 1 => jsGet t i

def jsJoin (b : List (Option String)) : String :=
  String.join (b.map (fun o => o.getD ""))

/-! ## Room code generation (server.js, generateRoomCode)

The JS code is: Math.random().toString(36).substring(2, 8).toUpperCase().
Number.prototype.toString(36) of a value in [0,1) yields "0" when the
value is 0 or has an empty shortest base-36 fractional expansion, and
otherwise "0." followed by the base-36 digits of the shortest expansion
that round-trips the double.  We embed the outcome of Math.random() as
that digit list (each digit < 36), which exactly captures the string the
code slices. -/

def base36Char (d : Nat) : Char :=
  if d < 10 then Char.ofNat (48 + d) else Char.ofNat (87 + d)

def numToString36 (digits : List Nat) : List Char :=
  match digits with
  | [] => ['0']
  | _ => '0' :: '.' :: digits.map base36Char

def jsSubstring (s : List Char) (a b : Nat) : List Char :=
  (s.drop a).take (b - a)

def jsToUpperCase (s : List Char) : List Char :=
  s.map Char.toUpper

def generateRoomCode (digits : List Nat) : List Char :=
  jsToUpperCase (jsSubstring (numToString36 digits) 2 8)

/-- Uppercase base-36 alphabet test: a character in 0-9 or A-Z. -/
def isUpperBase36 (c : Char) : Bool :=
  (48 ≤ c.toNat && c.toNat ≤ 57) || (65 ≤ c.toNat && c.toNat ≤ 90)

/-! ## Chunked world_sync reception (vr_client.js, worldWs.onmessage)

State: `let chunkBuffer = []; let expectedChunks = 0;`.  The handler
output is the payload string handed to `JSON.parse` + `loadWorldData`
(`none` when nothing is delivered to the application layer). -/

structure RState where
  chunkBuffer : List (Option String)
  expectedChunks : Nat
deriving Repr, DecidableEq

inductive WorldMsg where
  | worldSync (payload : String)
  | syncStart (totalChunks : Nat) (totalSize : Nat)
  | syncChunk (index : Nat) (data : String)
  | syncEnd
  | joinedRoom (playerId : String)
deriving Repr, DecidableEq

def initR : RState := { chunkBuffer := [], expectedChunks := 0 }

def handleWorldMsg (st : RState) : WorldMsg → RState × Option String
  | .worldSync payload => (st, some payload)
  | .syncStart totalChunks _ =>
      ({ chunkBuffer := [], expectedChunks := totalChunks }, none)
  | .syncChunk index data =>
      ({ st with chunkBuffer := jsSet st.chunkBuffer index data }, none)
  | .syncEnd =>
      if st.expectedChunks = 0 then
        -- "Received world_sync_end without start, ignoring"
        (st, none)
      else
        ({ chunkBuffer := [], expectedChunks := 0 }, some (jsJoin st.chunkBuffer))
  | .joinedRoom _ => (st, none)

def runWorld : RState → List WorldMsg → RState × List String
  | st, [] => (st, [])
  | st, m :: ms =>
    let r1 := handleWorldMsg st m
    let r2 := runWorld r1.1 ms
    (r2.1, (match r1.2 with | some p => [p] | none => []) ++ r2.2)

/-- Buffer contents after a list of (index, data) writes, starting from b. -/
def chunkFold (b : List (Option String)) (ps : List (Nat × String)) : List (Option String) :=
  ps.foldl (fun acc p => jsSet acc p.1 p.2) b

/-! ## Host-side chunked transfer sender
(main3d-enhanced.js, sendWorldDataToPlayers; remote_link.js, the 50 ms
state interval of startHostLink)

The sender is a state machine driven by callback events: the
application request (sendWorldDataToPlayers up to and including the
world_sync_start send), each sendNextChunk invocation, each
waitForBufferFlush poll, each tick of the remote_link state interval,
and loss of the connection.  The flags pauseState / pauseFrames embed
window.__pauseStateUpdates / window.__pauseFrameStreaming. -/

def CHUNK_SIZE : Nat := 2 * 1024 * 1024

def FLUSH_LOW_WATER : Nat := 10 * 1024

/-- Splitting loop of sendWorldDataToPlayers:
for (let i = 0; i < payload.length; i += CHUNK_SIZE)
  chunks.push(payload.substring(i, i + CHUNK_SIZE)).
The fuel argument bounds the number of loop iterations (one character
of the remaining payload is consumed per iteration at the very least),
so fuel = length of the payload always suffices. -/
def chunkifyAux : Nat → List Char → List (List Char)
  | _, [] => []
  | 0, _ => []
  | fuel + 1, l => l.take CHUNK_SIZE :: chunkifyAux fuel (l.drop CHUNK_SIZE)

def chunkify (payload : String) : List (List Char) :=
  chunkifyAux payload.data.length payload.data

inductive SMsg where
  | syncStartM (totalChunks : Nat) (totalSize : Nat)
  | syncChunkM (index : Nat) (data : List Char)
  | syncEndM
  | heartbeatM
  | stateM
deriving Repr, DecidableEq

inductive SPhase where
  | idle
  | transferring (chunks : List (List Char)) (chunkIndex : Nat)
  | flushing
deriving Repr, DecidableEq

structure Sender where
  phase : SPhase
  pauseState : Bool
  pauseFrames : Bool
  connected : Bool
deriving Repr, DecidableEq

inductive SEvent where
  | transferRequest (payload : String)
  | chunkTick
  | flushPoll (backlog : Nat)
  | stateTick (hasValidState : Bool)
  | connLost
deriving Repr, DecidableEq

def sInit : Sender :=
  { phase := .idle, pauseState := false, pauseFrames := false, connected := true }

def sstep (s : Sender) : SEvent → Sender × List SMsg
  | .transferRequest payload =>
    -- sendWorldDataToPlayers: bail out if the connection is not ready,
    -- otherwise set the pause flags and send world_sync_start.
    if s.connected then
      let chunks := chunkify payload
      ({ s with phase := .transferring chunks 0, pauseState := true, pauseFrames := true },
       [.syncStartM chunks.length payload.length])
    else (s, [])
  | .chunkTick =>
    match s.phase with
    | .transferring chunks chunkIndex =>
      if s.connected then
        if chunkIndex ≥ chunks.length then
          -- all chunks sent: world_sync_end then one extra heartbeat,
          -- then waitForBufferFlush polling starts
          ({ s with phase := .flushing }, [.syncEndM, .heartbeatM])
        else
          ({ s with phase := .transferring chunks (chunkIndex + 1) },
           (if chunkIndex % 5 = 0 ∧ chunkIndex > 0 then [SMsg.heartbeatM] else []) ++
             [.syncChunkM chunkIndex (chunks.getD chunkIndex [])])
      else
        -- "Connection lost during chunk transfer": clear flags, abort
        ({ s with phase := .idle, pauseState := false, pauseFrames := false }, [])
    | _ => (s, [])
  | .flushPoll backlog =>
    match s.phase with
    | .flushing =>
      if s.connected then
        if backlog > FLUSH_LOW_WATER then
          -- more than 10KB remaining: keep waiting, keep the pause flags
          (s, [])
        else
          ({ s with phase := .idle, pauseState := false, pauseFrames := false }, [])
      else
        ({ s with phase := .idle, pauseState := false, pauseFrames := false }, [])
    | _ => (s, [])
  | .stateTick hasValidState =>
    -- remote_link state interval: socket open, not paused, valid state
    if s.connected then
      if s.pauseState then (s, [])
      else if hasValidState then (s, [.stateM]) else (s, [])
    else (s, [])
  | .connLost => ({ s with connected := false }, [])

/-- Reachable sender states, starting from the idle connected state. -/
inductive SReach : Sender → Prop
  | start : SReach sInit
  | next (s : Sender) (e : SEvent) (h : SReach s) : SReach (sstep s e).1

/-- A concrete reachable Flushing state: a one-chunk transfer of the
payload "a" that has sent start, the single chunk, and end. -/
def exampleFlushing : Sender :=
  (sstep (sstep (sstep sInit (.transferRequest "a")).1 .chunkTick).1 .chunkTick).1

/-! ## The relay server (server.js)

State of the WebSocket server: the map of live sockets (keyed by an
abstract socket id; JS holds the ws objects themselves) and the map of
rooms.  Handlers return the updated state and the emitted effects. -/

structure WS where
  role : String
  roomCode : Option String
  playerId : Option String
  connOpen : Bool
  bufferedAmount : Nat
  isAlive : Bool
deriving Repr, DecidableEq

structure Stats where
  messagesSent : Nat
  bytesSent : Nat
  messagesReceived : Nat
  bytesReceived : Nat
deriving Repr, DecidableEq

def Stats.addSent (st : Stats) (msgs bytes : Nat) : Stats :=
  { st with messagesSent := st.messagesSent + msgs, bytesSent := st.bytesSent + bytes }

def Stats.addRecv (st : Stats) (msgs bytes : Nat) : Stats :=
  { st with messagesReceived := st.messagesReceived + msgs,
            bytesReceived := st.bytesReceived + bytes }

structure Room where
  host : Option Nat
  clients : List Nat
  frameBuffer : Option (List Nat)
  frameTimer : Bool
  stats : Stats
deriving Repr, DecidableEq

def emptyStats : Stats :=
  { messagesSent := 0, bytesSent := 0, messagesReceived := 0, bytesReceived := 0 }

def emptyRoom : Room :=
  { host := none, clients := [], frameBuffer := none, frameTimer := false,
    stats := emptyStats }

structure SState where
  socks : List (Nat × WS)
  rooms : List (String × Room)
  globalStats : Stats
deriving Repr, DecidableEq

def sInitState : SState := { socks := [], rooms := [], globalStats := emptyStats }

/-- Structured text message as parsed by JSON.parse: the type
discriminator, the playerId field (absent = not present in the JSON),
the remaining payload kept opaque, and the length of the serialized
form (abstracted, used only for byte counters). -/
structure TextMsg where
  mtype : String
  playerId : Option String := none
  body : String := ""
deriving Repr, DecidableEq

def TextMsg.wireLen (m : TextMsg) : Nat :=
  m.mtype.length + m.body.length + (match m.playerId with | some p => p.length | none => 0)

inductive OutMsg where
  | roomCreated (roomCode : String)
  | joinedRoom (roomCode : String) (playerId : String)
  | errorMsg (message : String)
  | playerJoined (playerId : String) (totalPlayers : Nat)
  | playerLeft (playerId : Option String) (totalPlayers : Nat)
  | hostDisconnected
  | relay (m : TextMsg)
deriving Repr, DecidableEq

inductive Data where
  | binary (frame : List Nat)
  | text (m : TextMsg)
  | badText (raw : String)
deriving Repr, DecidableEq

def Data.size : Data → Nat
  | .binary frame => frame.length
  | .text m => m.wireLen
  | .badText raw => raw.length

inductive Effect where
  | sendText (sid : Nat) (m : OutMsg)
  | sendBinary (sid : Nat) (frame : List Nat)
  | sendRaw (sid : Nat) (raw : String)
  | closeCall (sid : Nat)
deriving Repr, DecidableEq

def FRAME_SKIP_LIMIT : Nat := 2 * 1024 * 1024

def getOrCreateRoom (rooms : List (String × Room)) (roomCode : String) :
    List (String × Room) × Room :=
  match alookup rooms roomCode with
  | some room => (rooms, room)
  | none => (aset rooms roomCode emptyRoom, emptyRoom)

/-- cleanupRoom: delete the room iff it has no host and no clients. -/
def cleanupRoom (rooms : List (String × Room)) (roomCode : String) :
    List (String × Room) :=
  match alookup rooms roomCode with
  | some room =>
    if room.host = none ∧ room.clients = [] then aremove rooms roomCode else rooms
  | none => rooms

/-- room.clients.add(ws): JS Set semantics, append if absent. -/
def addClient (clients : List Nat) (sid : Nat) : List Nat :=
  if sid ∈ clients then clients else clients ++ [sid]

/-- room.clients.delete(ws): JS Set semantics. -/
def removeClient : List Nat → Nat → List Nat
  | [], _ => []
  | c :: t, sid => if c = sid then t else c :: removeClient t sid

/-- Frame broadcast loop of the flush timer: for each client of the
room, skip it when not open or when its outbound backlog exceeds 2 MB,
otherwise send the frame and bump the room and global counters. -/
def flushLoop (socks : List (Nat × WS)) (frame : List Nat) :
    List Nat → Stats → Stats → Stats × Stats × List Effect
  | [], rs, gs => (rs, gs, [])
  | v :: rest, rs, gs =>
    match alookup socks v with
    | some w =>
      if w.connOpen then
        if w.bufferedAmount > FRAME_SKIP_LIMIT then
          flushLoop socks frame rest rs gs
        else
          let r := flushLoop socks frame rest (rs.addSent 1 frame.length)
            (gs.addSent 1 frame.length)
          (r.1, r.2.1, .sendBinary v frame :: r.2.2)
      else flushLoop socks frame rest rs gs
    | none => flushLoop socks frame rest rs gs

/-- Broadcast loop for host structured messages (player_update and the
world_sync family): the original payload is relayed verbatim to every
open client, with no backlog check. -/
def bcastLoop (socks : List (Nat × WS)) (m : TextMsg) :
    List Nat → Stats → Stats → Stats × Stats × List Effect
  | [], rs, gs => (rs, gs, [])
  | v :: rest, rs, gs =>
    match alookup socks v with
    | some w =>
      if w.connOpen then
        let r := bcastLoop socks m rest (rs.addSent 1 m.wireLen) (gs.addSent 1 m.wireLen)
        (r.1, r.2.1, .sendText v (.relay m) :: r.2.2)
      else bcastLoop socks m rest rs gs
    | none => bcastLoop socks m rest rs gs

/-- Message types broadcast by the host text branch of server.js. -/
def broadcastType (t : String) : Bool :=
  if t = "player_update" then true
  else if t = "world_sync" then true
  else if t = "world_sync_start" then true
  else if t = "world_sync_chunk" then true
  else if t = "world_sync_end" then true
  else false

/-- host_disconnected notification loop of the close handler. -/
def notifyClients (socks : List (Nat × WS)) (clients : List Nat) : List Effect :=
  clients.filterMap (fun v =>
    match alookup socks v with
    | some w => if w.connOpen then some (.sendText v .hostDisconnected) else none
    | none => none)

/-- wss.on("connection"): role and room come from the query string, the
digit list feeds generateRoomCode when a host supplies no code, pid is
the generated player id for a client, buf is the initial outbound
backlog of the new socket. -/
def onConnection (s : SState) (sid : Nat) (role : String) (roomQ : Option String)
    (rand : List Nat) (pid : String) (buf : Nat) : SState × List Effect :=
  let ws0 : WS :=
    { role := role, roomCode := roomQ, playerId := none, connOpen := true,
      bufferedAmount := buf, isAlive := true }
  if role = "host" then
    -- host creates or joins a room
    let assigned := match roomQ with
      | some c => c
      | none => (generateRoomCode rand).asString
    let r0 := getOrCreateRoom s.rooms assigned
    let rooms0 := r0.1
    let room := r0.2
    -- if (room.host && room.host.readyState === ws.OPEN) room.host.close()
    let evict : List (Nat × WS) × List Effect :=
      match room.host with
      | some h =>
        match alookup s.socks h with
        | some wh =>
          if wh.connOpen then (aset s.socks h ({ wh with connOpen := false }), [.closeCall h])
          else (s.socks, [])
        | none => (s.socks, [])
      | none => (s.socks, [])
    let room1 := { room with host := some sid }
    let socks2 := aset evict.1 sid ({ ws0 with roomCode := some assigned })
    ({ s with socks := socks2, rooms := aset rooms0 assigned room1 },
     evict.2 ++ [.sendText sid (.roomCreated assigned)])
  else
    -- client must have a room code, and the room must exist with a host
    match roomQ with
    | none =>
      ({ s with socks := aset s.socks sid ({ ws0 with connOpen := false }) },
       [.sendText sid (.errorMsg "Room code required"), .closeCall sid])
    | some code =>
      match alookup s.rooms code with
      | none =>
        ({ s with socks := aset s.socks sid ({ ws0 with connOpen := false }) },
         [.sendText sid (.errorMsg "Room not found or host offline"), .closeCall sid])
      | some room =>
        match room.host with
        | none =>
          ({ s with socks := aset s.socks sid ({ ws0 with connOpen := false }) },
           [.sendText sid (.errorMsg "Room not found or host offline"), .closeCall sid])
        | some h =>
          let wsC := { ws0 with playerId := some pid }
          let clients1 := addClient room.clients sid
          let room1 := { room with clients := clients1 }
          -- notify host about new player (only if the host socket is open)
          let notifyHost : List Effect :=
            match alookup s.socks h with
            | some wh =>
              if wh.connOpen then [.sendText h (.playerJoined pid clients1.length)] else []
            | none => []
          -- send cached frame immediately (no backlog check)
          let cached : List Effect :=
            match room.frameBuffer with
            | some f => [.sendBinary sid f]
            | none => []
          ({ s with socks := aset s.socks sid wsC, rooms := aset s.rooms code room1 },
           [.sendText sid (.joinedRoom code pid)] ++ notifyHost ++ cached)

/-- ws.on("message") for a socket of either role. -/
def onMessage (s : SState) (sid : Nat) (d : Data) : SState × List Effect :=
  match alookup s.socks sid with
  | none => (s, [])
  | some ws =>
    let s := { s with globalStats := s.globalStats.addRecv 1 d.size }
    if ws.role = "host" then
      match ws.roomCode with
      | none => (s, [])
      | some code =>
        match alookup s.rooms code with
        | none => (s, [])  -- "Host message for non-existent room"
        | some room =>
          match d with
          | .binary frame =>
            -- buffer the frame, schedule a flush if none is scheduled
            let room1 := { room with frameBuffer := some frame, frameTimer := true }
            ({ s with rooms := aset s.rooms code room1 }, [])
          | .text m =>
            if m.mtype = "heartbeat" then
              ({ s with socks := aset s.socks sid ({ ws with isAlive := true }) }, [])
            else if broadcastType m.mtype then
              let r := bcastLoop s.socks m room.clients room.stats s.globalStats
              let room1 := { room with stats := r.1 }
              ({ s with rooms := aset s.rooms code room1, globalStats := r.2.1 }, r.2.2)
            else (s, [])  -- other types (such as "state") fall through
          | .badText _ => (s, [])  -- "Invalid JSON from host": logged, dropped
    else
      -- client sends to host
      match ws.roomCode with
      | none => (s, [])
      | some code =>
        match alookup s.rooms code with
        | none => (s, [])
        | some room =>
          match room.host with
          | none => (s, [])
          | some h =>
            let hostOpen : Bool :=
              match alookup s.socks h with
              | some wh => wh.connOpen
              | none => false
            match d with
            | .text m =>
              if m.mtype = "request_world_sync" then
                -- enriched with the sender id and forwarded to the host
                let enriched := { m with playerId := ws.playerId }
                if hostOpen then
                  let room1 := { room with stats := room.stats.addSent 1 enriched.wireLen }
                  ({ s with rooms := aset s.rooms code room1,
                            globalStats := s.globalStats.addSent 1 enriched.wireLen },
                   [.sendText h (.relay enriched)])
                else (s, [])
              else
                let enriched := { m with playerId := ws.playerId }
                if hostOpen then
                  let room1 := { room with stats := room.stats.addSent 1 enriched.wireLen }
                  ({ s with rooms := aset s.rooms code room1,
                            globalStats := s.globalStats.addSent 1 enriched.wireLen },
                   [.sendText h (.relay enriched)])
                else (s, [])
            | .badText raw =>
              -- "Not JSON, send as-is"
              if hostOpen then
                let room1 := { room with stats := room.stats.addSent 1 raw.length }
                ({ s with rooms := aset s.rooms code room1,
                          globalStats := s.globalStats.addSent 1 raw.length },
                 [.sendRaw h raw])
              else (s, [])
            | .binary frame =>
              if hostOpen then
                let room1 := { room with stats := room.stats.addSent 1 frame.length }
                ({ s with rooms := aset s.rooms code room1,
                          globalStats := s.globalStats.addSent 1 frame.length },
                 [.sendBinary h frame])
              else (s, [])

/-- ws.on("close"): room cleanup.  Note that the host branch clears
room.host unconditionally, without checking that the closing socket is
still the socket stored in room.host. -/
def onClose (s : SState) (sid : Nat) : SState × List Effect :=
  match alookup s.socks sid with
  | none => (s, [])
  | some ws =>
    let socks1 := aremove s.socks sid
    match ws.roomCode with
    | none => ({ s with socks := socks1 }, [])
    | some code =>
      match alookup s.rooms code with
      | none => ({ s with socks := socks1 }, [])
      | some room =>
        if ws.role = "host" then
          let room1 := { room with host := none, frameTimer := false }
          let effs := notifyClients s.socks room.clients
          ({ s with socks := socks1,
                    rooms := cleanupRoom (aset s.rooms code room1) code }, effs)
        else
          let clients1 := removeClient room.clients sid
          let room1 := { room with clients := clients1 }
          let effs : List Effect :=
            match room.host with
            | some h =>
              match alookup s.socks h with
              | some wh =>
                if wh.connOpen then [.sendText h (.playerLeft ws.playerId clients1.length)]
                else []
              | none => []
            | none => []
          ({ s with socks := socks1,
                    rooms := cleanupRoom (aset s.rooms code room1) code }, effs)

/-- Flush timer callback for a room: take and clear the latest frame,
do nothing if it is empty, otherwise fan it out over the clients. -/
def onFlush (s : SState) (code : String) : SState × List Effect :=
  match alookup s.rooms code with
  | none => (s, [])
  | some room =>
    if room.frameTimer then
      let room1 := { room with frameBuffer := none, frameTimer := false }
      match room.frameBuffer with
      | none => ({ s with rooms := aset s.rooms code room1 }, [])
      | some frame =>
        let r := flushLoop s.socks frame room.clients room1.stats s.globalStats
        let room2 := { room1 with stats := r.1 }
        ({ s with rooms := aset s.rooms code room2, globalStats := r.2.1 }, r.2.2)
    else (s, [])

inductive Event where
  | connect (sid : Nat) (role : String) (roomQ : Option String)
      (rand : List Nat) (pid : String) (buf : Nat)
  | message (sid : Nat) (d : Data)
  | closeEvt (sid : Nat)
  | flushFire (code : String)
deriving Repr, DecidableEq

def step (s : SState) : Event → SState × List Effect
  | .connect sid role roomQ rand pid buf => onConnection s sid role roomQ rand pid buf
  | .message sid d => onMessage s sid d
  | .closeEvt sid => onClose s sid
  | .flushFire code => onFlush s code

def run (s : SState) (es : List Event) : SState :=
  es.foldl (fun st e => (step st e).1) s

/-! ## Concrete states used by counterexamples and witnesses -/

/-- A host socket in room "R", open. -/
def hostWS : WS :=
  { role := "host", roomCode := some "R", playerId := none, connOpen := true,
    bufferedAmount := 0, isAlive := true }

/-- A viewer socket in room "R" with player id "p2", open. -/
def viewerWS : WS :=
  { role := "client", roomCode := some "R", playerId := some "p2", connOpen := true,
    bufferedAmount := 0, isAlive := true }

/-- A relay state with one room "R", host socket 1 and viewer socket 2. -/
def relayExample : SState :=
  { socks := [(1, hostWS), (2, viewerWS)],
    rooms := [("R", { host := some 1, clients := [2], frameBuffer := none,
                      frameTimer := false, stats := emptyStats })],
    globalStats := emptyStats }

/-- The eviction trace for claim C1: host 1 opens room "R00M01", host 2
connects with the same code (evicting host 1), then the close event of
host 1 is processed. -/
def evictionTrace : List Event :=
  [.connect 1 "host" (some "R00M01") [] "" 0,
   .connect 2 "host" (some "R00M01") [] "" 0,
   .closeEvt 1]

/-- Characterization of the flush loop skip condition: a client
receives the flushed frame iff its socket is open and its outbound
backlog does not exceed the 2 MB ceiling (derived predicate, used only
to state and prove lemmas about flushLoop). -/
def eligible (socks : List (Nat × WS)) (v : Nat) : Bool :=
  match alookup socks v with
  | some w =>
    if w.connOpen then
      if w.bufferedAmount > FRAME_SKIP_LIMIT then false else true
    else false
  | none => false

/-- The room of relayExample. -/
def roomR : Room :=
  { host := some 1, clients := [2], frameBuffer := none, frameTimer := false,
    stats := emptyStats }

/-- A slow viewer socket: outbound backlog above the 2 MB frame skip ceiling. -/
def slowViewerWS : WS :=
  { role := "client", roomCode := some "R", playerId := some "p3", connOpen := true,
    bufferedAmount := 3 * 1024 * 1024, isAlive := true }

/-- Relay state with host 1 and viewers 2 (fast) and 3 (slow), where a
frame [9] is buffered and a flush is scheduled for room "R". -/
def relayTwoViewers : SState :=
  { socks := [(1, hostWS), (2, viewerWS), (3, slowViewerWS)],
    rooms := [("R", { host := some 1, clients := [2, 3], frameBuffer := some [9],
                      frameTimer := true, stats := emptyStats })],
    globalStats := emptyStats }

/-- The room of relayTwoViewers. -/
def roomTwoViewers : Room :=
  { host := some 1, clients := [2, 3], frameBuffer := some [9], frameTimer := true,
    stats := emptyStats }

/-- Relay state with host 1, viewer 2, and a cached frame [7] in room "R". -/
def relayCached : SState :=
  { socks := [(1, hostWS), (2, viewerWS)],
    rooms := [("R", { host := some 1, clients := [2], frameBuffer := some [7],
                      frameTimer := true, stats := emptyStats })],
    globalStats := emptyStats }

/-- The room of relayCached. -/
def roomCached : Room :=
  { host := some 1, clients := [2], frameBuffer := some [7], frameTimer := true,
    stats := emptyStats }

/-- State after only host 1 has connected to room "R00M01". -/
def evictBase : SState :=
  run sInitState [Event.connect 1 "host" (some "R00M01") [] "" 0]

/-- The room of evictBase. -/
def evictRoom : Room := { emptyRoom with host := some 1 }

/-- The host socket of evictBase. -/
def evictHostWS : WS :=
  { role := "host", roomCode := some "R00M01", playerId := none, connOpen := true,
    bufferedAmount := 0, isAlive := true }

/-! ## Helper lemmas: association lists -/

theorem alookup_aset_self {α β : Type} [DecidableEq α] (l : List (α × β)) (k : α) (v : β) :
    alookup (aset l k v) k = some v := by
  induction l with
  | nil => simp [aset, alookup]
  | cons p t ih =>
    obtain ⟨k1, v1⟩ := p
    by_cases h : k1 = k
    · simp [aset, alookup, h]
    · simp [aset, alookup, h, ih]

theorem alookup_aset_ne {α β : Type} [DecidableEq α] (l : List (α × β)) (k k2 : α) (v : β)
    (h : k2 ≠ k) : alookup (aset l k v) k2 = alookup l k2 := by
  have h2 : ¬ k = k2 := fun hh => h hh.symm
  induction l with
  | nil => simp [aset, alookup, h2]
  | cons p t ih =>
    obtain ⟨k1, v1⟩ := p
    by_cases h1 : k1 = k
    · subst h1
      simp [aset, alookup, h2]
    · simp [aset, alookup, h1, ih]

theorem alookup_aremove_self {α β : Type} [DecidableEq α] (l : List (α × β)) (k : α) :
    alookup (aremove l k) k = none := by
  induction l with
  | nil => simp [aremove, alookup]
  | cons p t ih =>
    obtain ⟨k1, v1⟩ := p
    by_cases h : k1 = k
    · simp [aremove, h, ih]
    · simp [aremove, alookup, h, ih]

theorem alookup_aremove_ne {α β : Type} [DecidableEq α] (l : List (α × β)) (k k2 : α)
    (h : k2 ≠ k) : alookup (aremove l k) k2 = alookup l k2 := by
  have h2 : ¬ k = k2 := fun hh => h hh.symm
  induction l with
  | nil => simp [aremove]
  | cons p t ih =>
    obtain ⟨k1, v1⟩ := p
    by_cases h1 : k1 = k
    · subst h1
      simp [aremove, alookup, h2, ih]
    · simp [aremove, alookup, h1, ih]

/-! ## Helper lemmas: sparse JS arrays -/

theorem jsGet_jsSet_self (b : List (Option String)) (i : Nat) (v : String) :
    jsGet (jsSet b i v) i = some v := by
  induction i generalizing b with
  | zero => cases b <;> simp [jsSet, jsGet]
  | succ i ih => cases b <;> simp [jsSet, jsGet, ih]

theorem jsGet_jsSet_ne (b : List (Option String)) (i j : Nat) (v : String) (h : j ≠ i) :
    jsGet (jsSet b i v) j = jsGet b j := by
  induction i generalizing b j with
  | zero =>
    cases b <;> cases j <;> simp_all [jsSet, jsGet]
  | succ i ih =>
    cases b <;> cases j <;> simp_all [jsSet, jsGet]

theorem length_jsSet (b : List (Option String)) (i : Nat) (v : String) :
    (jsSet b i v).length = max b.length (i + 1) := by
  induction i generalizing b with
  | zero => cases b <;> simp [jsSet] <;> omega
  | succ i ih => cases b <;> simp [jsSet, ih] <;> omega

theorem jsGet_none_of_ge (b : List (Option String)) (j : Nat) (h : b.length ≤ j) :
    jsGet b j = none := by
  induction b generalizing j with
  | nil => simp [jsGet]
  | cons o t ih =>
    cases j with
    | zero => simp at h
    | succ j => simpa [jsGet] using ih j (by simpa using h)

theorem lt_length_of_jsGet_eq_some (b : List (Option String)) (j : Nat) (v : String)
    (h : jsGet b j = some v) : j < b.length := by
  by_contra hh
  rw [jsGet_none_of_ge b j (by omega)] at h
  cases h

/-! ## Helper lemmas: chunk buffer folding -/

theorem chunkFold_cons (b : List (Option String)) (p : Nat × String)
    (ps : List (Nat × String)) :
    chunkFold b (p :: ps) = chunkFold (jsSet b p.1 p.2) ps := rfl

theorem jsGet_chunkFold_not_mem (ps : List (Nat × String)) (b : List (Option String))
    (j : Nat) (h : j ∉ ps.map Prod.fst) :
    jsGet (chunkFold b ps) j = jsGet b j := by
  induction ps generalizing b with
  | nil => rfl
  | cons p ps ih =>
    simp only [List.map_cons, List.mem_cons, not_or] at h
    rw [chunkFold_cons, ih _ h.2, jsGet_jsSet_ne _ _ _ _ h.1]

theorem jsGet_chunkFold_mem (ps : List (Nat × String)) (b : List (Option String))
    (i : Nat) (v : String) (hnd : (ps.map Prod.fst).Nodup) (hmem : (i, v) ∈ ps) :
    jsGet (chunkFold b ps) i = some v := by
  induction ps generalizing b with
  | nil => cases hmem
  | cons p ps ih =>
    simp only [List.map_cons, List.nodup_cons] at hnd
    rcases List.mem_cons.mp hmem with heq | htail
    · subst heq
      show jsGet (chunkFold (jsSet b i v) ps) i = some v
      rw [jsGet_chunkFold_not_mem ps _ i hnd.1, jsGet_jsSet_self]
    · rw [chunkFold_cons]
      exact ih _ hnd.2 htail

theorem length_chunkFold_le (ps : List (Nat × String)) (b : List (Option String)) (n : Nat)
    (hk : ∀ p ∈ ps, p.1 < n) (hb : b.length ≤ n) :
    (chunkFold b ps).length ≤ n := by
  induction ps generalizing b with
  | nil => exact hb
  | cons p ps ih =>
    rw [chunkFold_cons]
    refine ih _ (fun q hq => hk q (List.mem_cons_of_mem _ hq)) ?_
    rw [length_jsSet]
    have := hk p (List.mem_cons_self _ _)
    omega

theorem buffer_eq_map_some (cs : List String) (b : List (Option String))
    (hlen : b.length = cs.length)
    (hget : ∀ i, i < cs.length → jsGet b i = some (cs.getD i "")) :
    b = cs.map some := by
  induction cs generalizing b with
  | nil =>
    cases b with
    | nil => rfl
    | cons o t => simp at hlen
  | cons c cs ih =>
    cases b with
    | nil => simp at hlen
    | cons o t =>
      have h0 : o = some c := by
        have := hget 0 (by simp)
        simpa [jsGet] using this
      have ht : t = cs.map some := by
        refine ih t (by simpa using hlen) (fun i hi => ?_)
        have := hget (i + 1) (by simpa using Nat.succ_lt_succ hi)
        simpa [jsGet] using this
      simp [h0, ht]

theorem runWorld_chunks (ps : List (Nat × String)) (b : List (Option String)) (k : Nat)
    (rest : List WorldMsg) :
    runWorld ⟨b, k⟩ (ps.map (fun p => WorldMsg.syncChunk p.1 p.2) ++ rest)
      = runWorld ⟨chunkFold b ps, k⟩ rest := by
  induction ps generalizing b with
  | nil => rfl
  | cons p ps ih =>
    show runWorld ⟨jsSet b p.1 p.2, k⟩ (ps.map (fun p => WorldMsg.syncChunk p.1 p.2) ++ rest)
      = runWorld ⟨chunkFold b (p :: ps), k⟩ rest
    rw [chunkFold_cons]
    exact ih (jsSet b p.1 p.2)

/-! ## Claim C9: room code generation -/

/-- Claim C9 counterexample: the claim says the generated room code is
exactly 6 characters for every possible outcome of the random source.
But Math.random() can return 0.5, whose base-36 string is "0.i" (a
single fractional digit, embedded as the digit list [18]);
substring(2, 8) is then "i" and the generated code has length 1. -/
theorem room_code_length_cex : (generateRoomCode [18]).length ≠ 6 := by decide

/-- Claim C9 (amended): the generated room code consists only of
uppercase base-36 characters (A-Z, 0-9) and has length min 6 k where k
is the number of fractional base-36 digits of the random value; in
particular it is exactly 6 characters whenever the random value has at
least 6 fractional base-36 digits. -/
theorem room_code_amended (digits : List Nat) (h : ∀ d ∈ digits, d < 36) :
    (generateRoomCode digits).length = min 6 digits.length
  ∧ (∀ c ∈ generateRoomCode digits, isUpperBase36 c = true)
  ∧ (6 ≤ digits.length → (generateRoomCode digits).length = 6) := by
  have hchar : ∀ d, d < 36 → isUpperBase36 (Char.toUpper (base36Char d)) = true := by decide
  have hlen : (generateRoomCode digits).length = min 6 digits.length := by
    cases digits with
    | nil => decide
    | cons d ds =>
      simp [generateRoomCode, jsToUpperCase, jsSubstring, numToString36]
      omega
  have hmem : ∀ c ∈ generateRoomCode digits, isUpperBase36 c = true := by
    intro c hc
    cases digits with
    | nil => simp [generateRoomCode, jsToUpperCase, jsSubstring, numToString36] at hc
    | cons d ds =>
      simp only [generateRoomCode, jsToUpperCase, jsSubstring, numToString36,
        List.mem_map] at hc
      obtain ⟨x, hx, rfl⟩ := hc
      have hx2 : x ∈ List.map base36Char (d :: ds) :=
        List.take_subset 6 (List.map base36Char (d :: ds)) hx
      obtain ⟨d0, hd0, rfl⟩ := List.mem_map.mp hx2
      exact hchar d0 (h d0 hd0)
  exact ⟨hlen, hmem, fun h6 => by rw [hlen]; omega⟩

/-- Claim C9 witness: six base-36 digits [10, 11, 1, 2, 35, 1] (the
string "0.ab12z1") give the 6-character uppercase code "AB12Z1". -/
theorem room_code_amended_witness :
    (∀ d ∈ [10, 11, 1, 2, 35, 1], d < 36)
  ∧ (generateRoomCode [10, 11, 1, 2, 35, 1]).length = 6
  ∧ (∀ c ∈ generateRoomCode [10, 11, 1, 2, 35, 1], isUpperBase36 c = true) := by
  refine ⟨by decide, ?_, ?_⟩
  · exact (room_code_amended [10, 11, 1, 2, 35, 1] (by decide)).2.2 (by decide)
  · exact (room_code_amended [10, 11, 1, 2, 35, 1] (by decide)).2.1

/-! ## Claim C2: order-independent chunk reassembly -/

/-- Claim C2 counterexample: the claim quantifies over every payload
split into n chunks, including n = 0 (the empty payload, which the
splitting loop of sendWorldDataToPlayers turns into zero chunks).  For
n = 0 the receiver treats world_sync_end as "end without start"
(expectedChunks = 0) and delivers nothing, not the empty concatenation. -/
theorem world_sync_reassembly_cex :
    (runWorld initR [WorldMsg.syncStart 0 0, WorldMsg.syncEnd]).2
      ≠ [String.join ([] : List String)] := by decide

/-- Claim C2 (amended): for every payload split into n ≥ 1 chunks,
delivering world_sync_start(n) followed by the n world_sync_chunk
messages in any permutation of indices 0..n-1, followed by
world_sync_end, delivers exactly the concatenation of the chunks in
index order (so any two permutations give byte-identical results) and
resets the reassembly state; and a duplicate index overwrites the
previously stored slice. -/
theorem world_sync_reassembly (cs : List String) (sz : Nat) (ps : List (Nat × String))
    (hne : cs ≠ [])
    (hperm : ps.Perm ((List.range cs.length).map (fun i => (i, cs.getD i "")))) :
    runWorld initR (WorldMsg.syncStart cs.length sz ::
        (ps.map (fun p => WorldMsg.syncChunk p.1 p.2) ++ [WorldMsg.syncEnd]))
      = (initR, [String.join cs])
  ∧ (∀ (st : RState) (i : Nat) (d1 d2 : String),
      jsGet ((handleWorldMsg ((handleWorldMsg st (WorldMsg.syncChunk i d1)).1)
        (WorldMsg.syncChunk i d2)).1).chunkBuffer i = some d2) := by
  constructor
  · have hn : cs.length ≠ 0 := fun hh => hne (List.eq_nil_of_length_eq_zero hh)
    have hkeys : (ps.map Prod.fst).Perm (List.range cs.length) := by
      have h2 := hperm.map Prod.fst
      rw [List.map_map] at h2
      have h3 : (Prod.fst ∘ fun i : Nat => (i, cs.getD i "")) = id := rfl
      rwa [h3, List.map_id] at h2
    have hnd : (ps.map Prod.fst).Nodup := hkeys.nodup_iff.mpr (List.nodup_range _)
    have hbound : ∀ p ∈ ps, p.1 < cs.length := by
      intro p hp
      have hmem : p.1 ∈ ps.map Prod.fst := List.mem_map_of_mem _ hp
      have := hkeys.mem_iff.mp hmem
      simpa [List.mem_range] using this
    have hget : ∀ i, i < cs.length → jsGet (chunkFold [] ps) i = some (cs.getD i "") := by
      intro i hi
      refine jsGet_chunkFold_mem _ _ _ _ hnd (hperm.mem_iff.mpr ?_)
      simp only [List.mem_map, List.mem_range]
      exact ⟨i, hi, rfl⟩
    have hlenle : (chunkFold [] ps).length ≤ cs.length :=
      length_chunkFold_le _ _ _ hbound (by simp)
    have hlenge : cs.length ≤ (chunkFold [] ps).length := by
      rcases Nat.exists_eq_succ_of_ne_zero hn with ⟨m, hm⟩
      have h1 := hget m (by omega)
      have h2 := lt_length_of_jsGet_eq_some _ _ _ h1
      omega
    have hbuf : chunkFold [] ps = cs.map some :=
      buffer_eq_map_some cs _ (by omega) hget
    have h1 : runWorld initR (WorldMsg.syncStart cs.length sz ::
        (ps.map (fun p => WorldMsg.syncChunk p.1 p.2) ++ [WorldMsg.syncEnd]))
        = runWorld ⟨[], cs.length⟩
            (ps.map (fun p => WorldMsg.syncChunk p.1 p.2) ++ [WorldMsg.syncEnd]) := rfl
    rw [h1, runWorld_chunks, hbuf]
    have h4 : List.map (fun o : Option String => o.getD "") (List.map some cs) = cs := by
      rw [List.map_map]
      have h5 : ((fun o : Option String => o.getD "") ∘ some) = id := rfl
      rw [h5, List.map_id]
    simp [runWorld, handleWorldMsg, hn, jsJoin, h4, initR]
  · intro st i d1 d2
    simp [handleWorldMsg, jsGet_jsSet_self]

/-- Claim C2 witness: the three chunks "ab", "cd", "ef" delivered in
index order [2, 0, 1] reassemble to "abcdef". -/
theorem world_sync_reassembly_witness :
    (["ab", "cd", "ef"] : List String) ≠ []
  ∧ ([(2, "ef"), (0, "ab"), (1, "cd")] : List (Nat × String)).Perm
      ((List.range (["ab", "cd", "ef"] : List String).length).map
        (fun i => (i, (["ab", "cd", "ef"] : List String).getD i "")))
  ∧ runWorld initR (WorldMsg.syncStart 3 6 ::
      (([(2, "ef"), (0, "ab"), (1, "cd")] : List (Nat × String)).map
        (fun p => WorldMsg.syncChunk p.1 p.2) ++ [WorldMsg.syncEnd]))
      = (initR, ["abcdef"]) := by
  refine ⟨by decide, by decide, ?_⟩
  exact (world_sync_reassembly ["ab", "cd", "ef"] 6 [(2, "ef"), (0, "ab"), (1, "cd")]
    (by decide) (by decide)).1

/-! ## Claim C6: world_sync_end without start -/

/-- Claim C6: a world_sync_end received when no world_sync_start has
been seen (expectedChunks unset, i.e. 0) is a no-op: the state
(including the chunk buffer) is unchanged and nothing is delivered to
the application layer (so nothing is parsed and no error can arise). -/
theorem world_sync_end_noop (st : RState) (h : st.expectedChunks = 0) :
    handleWorldMsg st WorldMsg.syncEnd = (st, none) := by
  simp [handleWorldMsg, h]

/-- Claim C6 witness: a state with a stale chunk in the buffer and
expectedChunks = 0 ignores world_sync_end. -/
theorem world_sync_end_noop_witness :
    ({ chunkBuffer := [some "x"], expectedChunks := 0 } : RState).expectedChunks = 0
  ∧ handleWorldMsg { chunkBuffer := [some "x"], expectedChunks := 0 } WorldMsg.syncEnd
      = ({ chunkBuffer := [some "x"], expectedChunks := 0 }, none) :=
  ⟨rfl, world_sync_end_noop _ rfl⟩

/-! ## Claim C3: no state traffic during a chunked transfer -/

theorem sreach_pause_invariant (s : Sender) (h : SReach s) :
    s.phase ≠ SPhase.idle → s.pauseState = true := by
  induction h with
  | start => intro hp; exact absurd rfl hp
  | next s e hs ih =>
    cases e with
    | transferRequest payload =>
      by_cases hc : s.connected
      · simp [sstep, hc]
      · simpa [sstep, hc] using ih
    | chunkTick =>
      cases hp : s.phase with
      | idle => simp [sstep, hp]
      | transferring chunks idx =>
        have hpause : s.pauseState = true := ih (by simp [hp])
        by_cases hc : s.connected
        · by_cases hge : idx ≥ chunks.length
          · simp [sstep, hp, hc, hge, hpause]
          · simp [sstep, hp, hc, hge, hpause]
        · simp [sstep, hp, hc]
      | flushing => simpa [sstep, hp] using ih
    | flushPoll b =>
      cases hp : s.phase with
      | idle => simp [sstep, hp]
      | transferring chunks idx => simpa [sstep, hp] using ih
      | flushing =>
        have hpause : s.pauseState = true := ih (by simp [hp])
        by_cases hc : s.connected
        · by_cases hb : b > FLUSH_LOW_WATER
          · simp [sstep, hp, hc, hb, hpause]
          · simp [sstep, hp, hc, hb]
        · simp [sstep, hp, hc]
    | stateTick valid =>
      by_cases hc : s.connected
      · by_cases hpz : s.pauseState
        · simpa [sstep, hc, hpz] using ih
        · by_cases hv : valid
          · simpa [sstep, hc, hpz, hv] using ih
          · simpa [sstep, hc, hpz, hv] using ih
      · simpa [sstep, hc] using ih
    | connLost => simpa [sstep] using ih

/-- Claim C3: at every reachable sender state, a state message can only
be emitted when the sender is Idle — while a transfer is active
(Transferring or Flushing, i.e. from the world_sync_start send until
the backlog poll after world_sync_end succeeds) no event emits a state
message; moreover a backlog poll above the ≈10 KB low-water mark leaves
the sender unchanged (pause flag still set), and a poll at or below it
clears the pause flag and returns the sender to Idle. -/
theorem chunked_transfer_pauses_state (s : Sender) (hs : SReach s) :
    (∀ e : SEvent, SMsg.stateM ∈ (sstep s e).2 → s.phase = SPhase.idle)
  ∧ (∀ b : Nat, s.phase = SPhase.flushing → s.connected = true → FLUSH_LOW_WATER < b →
      (sstep s (SEvent.flushPoll b)).1 = s)
  ∧ (∀ b : Nat, s.phase = SPhase.flushing → s.connected = true → b ≤ FLUSH_LOW_WATER →
      (sstep s (SEvent.flushPoll b)).1.pauseState = false
    ∧ (sstep s (SEvent.flushPoll b)).1.phase = SPhase.idle) := by
  refine ⟨?_, ?_, ?_⟩
  · intro e hmem
    cases e with
    | transferRequest payload =>
      by_cases hc : s.connected <;> simp [sstep, hc] at hmem
    | chunkTick =>
      cases hp : s.phase with
      | idle => rfl
      | transferring chunks idx =>
        by_cases hc : s.connected
        · by_cases hge : idx ≥ chunks.length
          · simp [sstep, hp, hc, hge] at hmem
          · by_cases h5 : idx % 5 = 0 ∧ idx > 0
            · simp [sstep, hp, hc, hge, h5] at hmem
            · simp [sstep, hp, hc, hge, h5] at hmem
        · simp [sstep, hp, hc] at hmem
      | flushing => simp [sstep, hp] at hmem
    | flushPoll b =>
      cases hp : s.phase with
      | idle => simp [sstep, hp] at hmem
      | transferring chunks idx => simp [sstep, hp] at hmem
      | flushing =>
        by_cases hc : s.connected
        · by_cases hb : b > FLUSH_LOW_WATER
          · simp [sstep, hp, hc, hb] at hmem
          · simp [sstep, hp, hc, hb] at hmem
        · simp [sstep, hp, hc] at hmem
    | stateTick valid =>
      by_cases hc : s.connected
      · by_cases hpz : s.pauseState
        · simp [sstep, hc, hpz] at hmem
        · by_cases hv : valid
          · by_contra hni
            exact absurd (sreach_pause_invariant s hs hni) hpz
          · simp [sstep, hc, hpz, hv] at hmem
      · simp [sstep, hc] at hmem
    | connLost => simp [sstep] at hmem
  · intro b hp hc hb
    simp [sstep, hp, hc, hb]
  · intro b hp hc hb
    have hb2 : ¬ (b > FLUSH_LOW_WATER) := by omega
    simp [sstep, hp, hc, hb2]

/-- Claim C3 witness: a concrete reachable Flushing state (one-chunk
transfer of "a" after start, chunk 0 and end): a poll with 20480 bytes
of backlog keeps the sender paused, a poll with 0 bytes unpauses it. -/
theorem chunked_transfer_pauses_state_witness :
    exampleFlushing.phase = SPhase.flushing
  ∧ exampleFlushing.connected = true
  ∧ (sstep exampleFlushing (SEvent.flushPoll 20480)).1 = exampleFlushing
  ∧ (sstep exampleFlushing (SEvent.flushPoll 0)).1.pauseState = false := by
  have hreach : SReach exampleFlushing :=
    SReach.next _ SEvent.chunkTick
      (SReach.next _ SEvent.chunkTick
        (SReach.next _ (SEvent.transferRequest "a") SReach.start))
  refine ⟨by decide, by decide, ?_, ?_⟩
  · exact (chunked_transfer_pauses_state exampleFlushing hreach).2.1 20480
      (by decide) (by decide) (by decide)
  · exact ((chunked_transfer_pauses_state exampleFlushing hreach).2.2 0
      (by decide) (by decide) (by decide)).1

/-! ## Helper lemmas: the relay server -/

theorem addSent_addSent (st : Stats) (a b c d : Nat) :
    (st.addSent a b).addSent c d = st.addSent (a + c) (b + d) := by
  simp [Stats.addSent, Nat.add_assoc]

theorem flushLoop_spec (socks : List (Nat × WS)) (frame : List Nat) :
    ∀ (clients : List Nat) (rs gs : Stats),
      flushLoop socks frame clients rs gs
        = (rs.addSent (clients.filter (eligible socks)).length
             ((clients.filter (eligible socks)).length * frame.length),
           gs.addSent (clients.filter (eligible socks)).length
             ((clients.filter (eligible socks)).length * frame.length),
           (clients.filter (eligible socks)).map (fun v => Effect.sendBinary v frame)) := by
  intro clients
  induction clients with
  | nil =>
    intro rs gs
    simp [flushLoop, Stats.addSent]
  | cons v rest ih =>
    intro rs gs
    cases hv : alookup socks v with
    | none =>
      have he : eligible socks v = false := by simp [eligible, hv]
      simp [flushLoop, hv, he, List.filter_cons, ih]
    | some w =>
      by_cases ho : w.connOpen = true
      · by_cases hb : w.bufferedAmount > FRAME_SKIP_LIMIT
        · have he : eligible socks v = false := by simp [eligible, hv, ho, hb]
          simp [flushLoop, hv, ho, hb, he, List.filter_cons, ih]
        · have he : eligible socks v = true := by simp [eligible, hv, ho, hb]
          have hstep : flushLoop socks frame (v :: rest) rs gs
              = (let r := flushLoop socks frame rest (rs.addSent 1 frame.length)
                   (gs.addSent 1 frame.length)
                 (r.1, r.2.1, Effect.sendBinary v frame :: r.2.2)) := by
            simp [flushLoop, hv, ho, hb]
          rw [hstep]
          simp only [ih, addSent_addSent, List.filter_cons, he, if_true,
            List.length_cons, List.map_cons]
          refine Prod.ext ?_ (Prod.ext ?_ rfl)
          · show Stats.addSent rs (1 + (List.filter (eligible socks) rest).length)
              (frame.length + (List.filter (eligible socks) rest).length * frame.length) = _
            congr 1
            · omega
            · ring
          · show Stats.addSent gs (1 + (List.filter (eligible socks) rest).length)
              (frame.length + (List.filter (eligible socks) rest).length * frame.length) = _
            congr 1
            · omega
            · ring
      · have he : eligible socks v = false := by simp [eligible, hv, ho]
        simp [flushLoop, hv, ho, he, List.filter_cons, ih]

theorem onMessage_host_binary (s : SState) (sid : Nat) (ws : WS) (code : String)
    (room : Room) (frame : List Nat)
    (hs : alookup s.socks sid = some ws) (hrole : ws.role = "host")
    (hrc : ws.roomCode = some code) (hm : alookup s.rooms code = some room) :
    onMessage s sid (Data.binary frame)
      = (let room1 : Room := { room with frameBuffer := some frame, frameTimer := true }
         ({ s with rooms := aset s.rooms code room1,
                   globalStats := s.globalStats.addRecv 1 frame.length }, [])) := by
  simp [onMessage, hs, hrole, hrc, hm, Data.size]

theorem onFlush_spec (s : SState) (code : String) (room : Room) (frame : List Nat)
    (hm : alookup s.rooms code = some room) (hb : room.frameBuffer = some frame)
    (ht : room.frameTimer = true) :
    onFlush s code
      = (let k := (room.clients.filter (eligible s.socks)).length
         let room2 : Room := { room with frameBuffer := none, frameTimer := false,
                                         stats := room.stats.addSent k (k * frame.length) }
         ({ s with rooms := aset s.rooms code room2,
                   globalStats := s.globalStats.addSent k (k * frame.length) },
          (room.clients.filter (eligible s.socks)).map
            (fun v => Effect.sendBinary v frame))) := by
  simp [onFlush, hm, ht, hb, flushLoop_spec]

/-! ## Claim C4: frame delivery is latest-wins -/

/-- Claim C4: while a flush is pending, each arriving binary frame
overwrites the buffered one and nothing is sent; the flush delivers
only the most recently buffered frame (F3) and clears the buffer; a
flush that finds no buffered frame sends nothing. -/
theorem frame_latest_wins (s : SState) (sid : Nat) (ws : WS) (code : String)
    (room : Room) (f1 f2 f3 : List Nat)
    (hs : alookup s.socks sid = some ws) (hrole : ws.role = "host")
    (hrc : ws.roomCode = some code) (hm : alookup s.rooms code = some room) :
    ((onMessage s sid (Data.binary f1)).2 = []
  ∧ (onMessage (onMessage s sid (Data.binary f1)).1 sid (Data.binary f2)).2 = []
  ∧ (onMessage (onMessage (onMessage s sid (Data.binary f1)).1 sid (Data.binary f2)).1
       sid (Data.binary f3)).2 = [])
  ∧ (alookup (onMessage s sid (Data.binary f1)).1.rooms code).map Room.frameBuffer
      = some (some f1)
  ∧ (alookup (onMessage (onMessage (onMessage s sid (Data.binary f1)).1 sid
       (Data.binary f2)).1 sid (Data.binary f3)).1.rooms code).map Room.frameBuffer
      = some (some f3)
  ∧ (∀ eff ∈ (onFlush (onMessage (onMessage (onMessage s sid (Data.binary f1)).1 sid
       (Data.binary f2)).1 sid (Data.binary f3)).1 code).2,
       ∃ v, eff = Effect.sendBinary v f3)
  ∧ (alookup (onFlush (onMessage (onMessage (onMessage s sid (Data.binary f1)).1 sid
       (Data.binary f2)).1 sid (Data.binary f3)).1 code).1.rooms code).map Room.frameBuffer
      = some none
  ∧ (∀ (t : SState) (rm : Room), alookup t.rooms code = some rm → rm.frameBuffer = none →
       (onFlush t code).2 = []) := by
  have e1 := onMessage_host_binary s sid ws code room f1 hs hrole hrc hm
  have hr1 : alookup (onMessage s sid (Data.binary f1)).1.rooms code
      = some { room with frameBuffer := some f1, frameTimer := true } := by
    rw [e1]
    exact alookup_aset_self _ _ _
  have hsk1 : alookup (onMessage s sid (Data.binary f1)).1.socks sid = some ws := by
    rw [e1]
    exact hs
  have e2 := onMessage_host_binary (onMessage s sid (Data.binary f1)).1 sid ws code
    { room with frameBuffer := some f1, frameTimer := true } f2 hsk1 hrole hrc hr1
  have hr2 : alookup (onMessage (onMessage s sid (Data.binary f1)).1 sid
      (Data.binary f2)).1.rooms code
      = some { room with frameBuffer := some f2, frameTimer := true } := by
    rw [e2]
    exact alookup_aset_self _ _ _
  have hsk2 : alookup (onMessage (onMessage s sid (Data.binary f1)).1 sid
      (Data.binary f2)).1.socks sid = some ws := by
    rw [e2]
    exact hsk1
  have e3 := onMessage_host_binary (onMessage (onMessage s sid (Data.binary f1)).1 sid
    (Data.binary f2)).1 sid ws code
    { room with frameBuffer := some f2, frameTimer := true } f3 hsk2 hrole hrc hr2
  have hr3 : alookup (onMessage (onMessage (onMessage s sid (Data.binary f1)).1 sid
      (Data.binary f2)).1 sid (Data.binary f3)).1.rooms code
      = some { room with frameBuffer := some f3, frameTimer := true } := by
    rw [e3]
    exact alookup_aset_self _ _ _
  have e4 := onFlush_spec (onMessage (onMessage (onMessage s sid (Data.binary f1)).1 sid
    (Data.binary f2)).1 sid (Data.binary f3)).1 code
    { room with frameBuffer := some f3, frameTimer := true } f3 hr3 rfl rfl
  refine ⟨⟨by simp [e1], by simp [e2], by simp [e3]⟩, by simp [hr1], by simp [hr3], ?_, ?_, ?_⟩
  · intro eff heff
    rw [e4] at heff
    simp only [List.mem_map] at heff
    obtain ⟨v, _, hveq⟩ := heff
    exact ⟨v, hveq.symm⟩
  · rw [e4]
    simp [alookup_aset_self]
  · intro t rm hrm hfb
    by_cases htm : rm.frameTimer = true
    · simp [onFlush, hrm, hfb, htm]
    · simp [onFlush, hrm, htm]

/-- Claim C4 witness: frames [1], [2], [3] buffered in relayExample,
then flushed: the final buffer holds [3] and any flushed delivery
carries [3]. -/
theorem frame_latest_wins_witness :
    alookup relayExample.socks 1 = some hostWS
  ∧ alookup relayExample.rooms "R" = some roomR
  ∧ (alookup (onMessage (onMessage (onMessage relayExample 1 (Data.binary [1])).1 1
      (Data.binary [2])).1 1 (Data.binary [3])).1.rooms "R").map Room.frameBuffer
      = some (some [3])
  ∧ (∀ eff ∈ (onFlush (onMessage (onMessage (onMessage relayExample 1 (Data.binary [1])).1 1
      (Data.binary [2])).1 1 (Data.binary [3])).1 "R").2,
      ∃ v, eff = Effect.sendBinary v [3]) := by
  have h := frame_latest_wins relayExample 1 hostWS "R" roomR [1] [2] [3]
    (by decide) rfl rfl (by decide)
  exact ⟨by decide, by decide, h.2.2.1, h.2.2.2.1⟩

/-! ## Claim C5: per-recipient backpressure independence -/

/-- Claim C5: on a broadcast flush, each open viewer whose outbound
backlog exceeds the 2 MB ceiling is skipped (the frame is dropped for
it), while each open viewer at or below the ceiling receives the
frame; whether one viewer is skipped has no bearing on the others, and
the room message counter grows by exactly the number of viewers that
received the frame. -/
theorem frame_backpressure_independent (s : SState) (code : String) (room : Room)
    (frame : List Nat) (v : Nat) (w : WS)
    (hm : alookup s.rooms code = some room) (hb : room.frameBuffer = some frame)
    (ht : room.frameTimer = true)
    (hv : v ∈ room.clients) (hw : alookup s.socks v = some w) (hopen : w.connOpen = true) :
    (FRAME_SKIP_LIMIT < w.bufferedAmount →
       Effect.sendBinary v frame ∉ (onFlush s code).2)
  ∧ (w.bufferedAmount ≤ FRAME_SKIP_LIMIT →
       Effect.sendBinary v frame ∈ (onFlush s code).2)
  ∧ (alookup (onFlush s code).1.rooms code).map (fun r => r.stats.messagesSent)
      = some (room.stats.messagesSent + (room.clients.filter (eligible s.socks)).length) := by
  have e4 := onFlush_spec s code room frame hm hb ht
  refine ⟨?_, ?_, ?_⟩
  · intro hbig hmem
    rw [e4] at hmem
    simp only [List.mem_map] at hmem
    obtain ⟨v2, hv2, hveq⟩ := hmem
    have hv2v : v2 = v := by
      have := (Effect.sendBinary.injEq _ _ _ _).mp hveq
      exact this.1
    subst hv2v
    have helig : eligible s.socks v2 = true := (List.mem_filter.mp hv2).2
    rw [eligible, hw] at helig
    simp only [hopen, if_true] at helig
    have : ¬ (w.bufferedAmount > FRAME_SKIP_LIMIT) := by
      intro hgt
      simp [hgt] at helig
    omega
  · intro hsmall
    rw [e4]
    simp only [List.mem_map]
    refine ⟨v, ?_, rfl⟩
    refine List.mem_filter.mpr ⟨hv, ?_⟩
    rw [eligible, hw]
    simp only [hopen, if_true]
    have : ¬ (w.bufferedAmount > FRAME_SKIP_LIMIT) := by omega
    simp [this]
  · rw [e4]
    simp [alookup_aset_self, Stats.addSent]

/-- Claim C5 witness: in relayTwoViewers (viewer 2 with empty backlog,
viewer 3 with a 3 MB backlog), the flush delivers the frame [9] to
viewer 2 and not to viewer 3. -/
theorem frame_backpressure_independent_witness :
    alookup relayTwoViewers.rooms "R" = some roomTwoViewers
  ∧ Effect.sendBinary 2 [9] ∈ (onFlush relayTwoViewers "R").2
  ∧ Effect.sendBinary 3 [9] ∉ (onFlush relayTwoViewers "R").2 := by
  have h2 := frame_backpressure_independent relayTwoViewers "R" roomTwoViewers [9] 2 viewerWS
    (by decide) rfl rfl (by decide) (by decide) rfl
  have h3 := frame_backpressure_independent relayTwoViewers "R" roomTwoViewers [9] 3 slowViewerWS
    (by decide) rfl rfl (by decide) (by decide) rfl
  exact ⟨by decide, h2.2.1 (by decide), h3.1 (by decide)⟩

/-! ## Claim C10: cached frame sent on viewer join -/

/-- Claim C10: when a viewer joins a room with a host and a buffered
(unflushed) latest frame, the relay sends that frame to the joining
viewer in the join handler itself (so before any later flush), and
does so whatever the viewer's outbound backlog is — there is no check
against the 2 MB skip ceiling on this path. -/
theorem cached_frame_on_join (s : SState) (sid : Nat) (code : String) (room : Room)
    (h : Nat) (rand : List Nat) (pid : String) (buf : Nat) (frame : List Nat)
    (hm : alookup s.rooms code = some room) (hh : room.host = some h)
    (hf : room.frameBuffer = some frame) :
    Effect.sendBinary sid frame ∈ (onConnection s sid "client" (some code) rand pid buf).2 := by
  have hcl : ¬ ("client" : String) = "host" := by decide
  cases hhost : alookup s.socks h with
  | none => simp [onConnection, hcl, hm, hh, hf, hhost]
  | some wh =>
    by_cases hwo : wh.connOpen = true
    · simp [onConnection, hcl, hm, hh, hf, hhost, hwo]
    · simp [onConnection, hcl, hm, hh, hf, hhost, hwo]

/-- Claim C10 witness: viewer 3 joins relayCached with a 3 MB backlog
(above the skip ceiling) and still receives the cached frame [7]. -/
theorem cached_frame_on_join_witness :
    alookup relayCached.rooms "R" = some roomCached
  ∧ roomCached.frameBuffer = some [7]
  ∧ Effect.sendBinary 3 [7]
      ∈ (onConnection relayCached 3 "client" (some "R") [] "p3" (3 * 1024 * 1024)).2 := by
  refine ⟨by decide, rfl, ?_⟩
  exact cached_frame_on_join relayCached 3 "R" roomCached 1 [] "p3" (3 * 1024 * 1024) [7]
    (by decide) rfl rfl

/-! ## Claim C7: malformed text payloads -/

/-- Claim C7 counterexample: the claim says a malformed text payload
from any session is dropped without being forwarded.  But a non-JSON
text from a viewer (socket 2 of relayExample) is forwarded verbatim to
the room's host (socket 1) by the "Not JSON, send as-is" branch. -/
theorem malformed_viewer_forwarded_cex :
    (onMessage relayExample 2 (Data.badText "oops")).2 = [Effect.sendRaw 1 "oops"]
  ∧ (onMessage relayExample 2 (Data.badText "oops")).2 ≠ [] := by decide

/-- Claim C7 (amended): a malformed text payload never closes a
connection and is never fatal, and from a host it is logged and
dropped (no effects, sockets and rooms unchanged); but from a viewer
it is not dropped: it is forwarded as-is (unenriched) to the room's
host whenever the host socket is open. -/
theorem malformed_handling_amended :
    (∀ (s : SState) (sid : Nat) (ws : WS) (raw : String),
       alookup s.socks sid = some ws → ws.role = "host" →
       (onMessage s sid (Data.badText raw)).2 = []
     ∧ (onMessage s sid (Data.badText raw)).1.socks = s.socks
     ∧ (onMessage s sid (Data.badText raw)).1.rooms = s.rooms)
  ∧ (∀ (s : SState) (sid : Nat) (ws : WS) (raw code : String) (room : Room)
       (h : Nat) (wh : WS),
       alookup s.socks sid = some ws → ws.role ≠ "host" → ws.roomCode = some code →
       alookup s.rooms code = some room → room.host = some h →
       alookup s.socks h = some wh → wh.connOpen = true →
       (onMessage s sid (Data.badText raw)).2 = [Effect.sendRaw h raw]
     ∧ (∀ sid2 : Nat, Effect.closeCall sid2 ∉ (onMessage s sid (Data.badText raw)).2)) := by
  constructor
  · intro s sid ws raw hs hrole
    cases hrc : ws.roomCode with
    | none => simp [onMessage, hs, hrole, hrc]
    | some code =>
      cases hm : alookup s.rooms code with
      | none => simp [onMessage, hs, hrole, hrc, hm]
      | some room => simp [onMessage, hs, hrole, hrc, hm]
  · intro s sid ws raw code room h wh hs hrole hrc hm hh hw hwo
    constructor
    · simp [onMessage, hs, hrole, hrc, hm, hh, hw, hwo]
    · intro sid2
      simp [onMessage, hs, hrole, hrc, hm, hh, hw, hwo]

/-- Claim C7 witness: in relayExample, a malformed text from host 1 is
dropped with no effects, and a malformed text from viewer 2 reaches
host 1 as-is. -/
theorem malformed_handling_amended_witness :
    hostWS.role = "host"
  ∧ (onMessage relayExample 1 (Data.badText "oops")).2 = []
  ∧ (onMessage relayExample 1 (Data.badText "oops")).1.rooms = relayExample.rooms
  ∧ (onMessage relayExample 2 (Data.badText "zzz")).2 = [Effect.sendRaw 1 "zzz"] := by
  have h1 := malformed_handling_amended.1 relayExample 1 hostWS "oops" (by decide) rfl
  have h2 := (malformed_handling_amended.2 relayExample 2 viewerWS "zzz" "R" roomR 1 hostWS
    (by decide) (by decide) rfl (by decide) rfl (by decide) rfl).1
  exact ⟨rfl, h1.1, h1.2.2, h2⟩

/-! ## Claim C8: heartbeat messages -/

/-- Claim C8 counterexample: the claim says a heartbeat only updates
the sender's liveness flag and is never forwarded.  But a viewer
heartbeat (socket 2 of relayExample) is enriched with the viewer id and
forwarded to the host like any other viewer message, and the viewer's
liveness flag is not touched (the sockets map is unchanged). -/
theorem heartbeat_forwarded_cex :
    (onMessage relayExample 2 (Data.text { mtype := "heartbeat" })).2
      = [Effect.sendText 1 (OutMsg.relay { mtype := "heartbeat", playerId := some "p2" })]
  ∧ (onMessage relayExample 2 (Data.text { mtype := "heartbeat" })).1.socks
      = relayExample.socks := by decide

/-- Claim C8 (amended): a heartbeat from a host updates the host's
liveness flag and is not forwarded to anyone; a heartbeat from a
viewer does not update any liveness flag and is enriched with the
viewer's id and forwarded to the room's host (when the host socket is
open), like any other viewer text message. -/
theorem heartbeat_handling_amended :
    (∀ (s : SState) (sid : Nat) (ws : WS) (code : String) (room : Room) (m : TextMsg),
       alookup s.socks sid = some ws → ws.role = "host" → ws.roomCode = some code →
       alookup s.rooms code = some room → m.mtype = "heartbeat" →
       (onMessage s sid (Data.text m)).2 = []
     ∧ (onMessage s sid (Data.text m)).1.socks = aset s.socks sid ({ ws with isAlive := true })
     ∧ (onMessage s sid (Data.text m)).1.rooms = s.rooms)
  ∧ (∀ (s : SState) (sid : Nat) (ws : WS) (code : String) (room : Room) (h : Nat)
       (wh : WS) (m : TextMsg),
       alookup s.socks sid = some ws → ws.role ≠ "host" → ws.roomCode = some code →
       alookup s.rooms code = some room → room.host = some h →
       alookup s.socks h = some wh → wh.connOpen = true → m.mtype = "heartbeat" →
       (onMessage s sid (Data.text m)).2
         = [Effect.sendText h (OutMsg.relay { m with playerId := ws.playerId })]
     ∧ (onMessage s sid (Data.text m)).1.socks = s.socks) := by
  constructor
  · intro s sid ws code room m hs hrole hrc hm hmt
    refine ⟨?_, ?_, ?_⟩ <;> simp [onMessage, hs, hrole, hrc, hm, hmt]
  · intro s sid ws code room h wh m hs hrole hrc hm hh hw hwo hmt
    have hmt2 : ¬ m.mtype = "request_world_sync" := by rw [hmt]; decide
    constructor
    · simp [onMessage, hs, hrole, hrc, hm, hh, hw, hwo, hmt2]
    · simp [onMessage, hs, hrole, hrc, hm, hh, hw, hwo, hmt2]

/-- Claim C8 witness: in relayExample, a host heartbeat produces no
effects and only sets the host's liveness flag; a viewer heartbeat is
forwarded to the host enriched with the viewer id. -/
theorem heartbeat_handling_amended_witness :
    hostWS.role = "host"
  ∧ (onMessage relayExample 1 (Data.text { mtype := "heartbeat" })).2 = []
  ∧ (onMessage relayExample 1 (Data.text { mtype := "heartbeat" })).1.socks
      = aset relayExample.socks 1 ({ hostWS with isAlive := true })
  ∧ (onMessage relayExample 2 (Data.text { mtype := "heartbeat" })).2
      = [Effect.sendText 1 (OutMsg.relay { mtype := "heartbeat", playerId := some "p2" })] := by
  have h1 := heartbeat_handling_amended.1 relayExample 1 hostWS "R" roomR
    { mtype := "heartbeat" } (by decide) rfl rfl (by decide) rfl
  have h2 := (heartbeat_handling_amended.2 relayExample 2 viewerWS "R" roomR 1 hostWS
    { mtype := "heartbeat" } (by decide) (by decide) rfl (by decide) rfl (by decide)
    rfl rfl).1
  exact ⟨rfl, h1.1, h1.2.1, h2⟩

/-! ## Claim C1: host eviction -/

/-- Claim C1 counterexample: the claim says the eviction of an old host
never clears or disconnects the newly installed host.  In the trace
where host 1 opens room R00M01, host 2 connects with the same code
(evicting host 1), and then the close event of evicted host 1 is
processed, the close handler clears room.host unconditionally and the
now empty room is deleted — while socket 2, the most recently attached
host, is still connected and bound to R00M01. -/
theorem host_eviction_cex :
    alookup (run sInitState evictionTrace).rooms "R00M01" = none
  ∧ alookup (run sInitState evictionTrace).socks 2
      = some { role := "host", roomCode := some "R00M01", playerId := none,
               connOpen := true, bufferedAmount := 0, isAlive := true } := by decide

/-- Claim C1 (amended): when a host connects to a room whose current
host is set and open, the relay force-closes the previous host and
installs the new session as the room's host; but when the evicted
host's close event is subsequently processed, the room's host
reference is cleared again (and the room deleted if it has no
viewers), even though the newly installed host socket is still present
and open. -/
theorem host_eviction_amended (s : SState) (code : String) (room : Room)
    (sid1 sid2 : Nat) (ws1 : WS) (rand : List Nat) (pid : String) (buf : Nat)
    (hm : alookup s.rooms code = some room) (hh : room.host = some sid1)
    (hs1 : alookup s.socks sid1 = some ws1) (hopen : ws1.connOpen = true)
    (hrole : ws1.role = "host") (hrc : ws1.roomCode = some code) (hne : sid2 ≠ sid1) :
    Effect.closeCall sid1 ∈ (onConnection s sid2 "host" (some code) rand pid buf).2
  ∧ (alookup (onConnection s sid2 "host" (some code) rand pid buf).1.rooms code).map Room.host
      = some (some sid2)
  ∧ (alookup (onClose (onConnection s sid2 "host" (some code) rand pid buf).1 sid1).1.rooms
       code = none
     ∨ (alookup (onClose (onConnection s sid2 "host" (some code) rand pid buf).1
          sid1).1.rooms code).map Room.host = some none)
  ∧ alookup (onClose (onConnection s sid2 "host" (some code) rand pid buf).1 sid1).1.socks
      sid2
      = some { role := "host", roomCode := some code, playerId := none, connOpen := true,
               bufferedAmount := buf, isAlive := true } := by
  have e1 : onConnection s sid2 "host" (some code) rand pid buf
      = (let ws1c : WS := { ws1 with connOpen := false }
         let ws2 : WS := { role := "host", roomCode := some code, playerId := none,
                           connOpen := true, bufferedAmount := buf, isAlive := true }
         let room1 : Room := { room with host := some sid2 }
         ({ s with socks := aset (aset s.socks sid1 ws1c) sid2 ws2,
                   rooms := aset s.rooms code room1 },
          [Effect.closeCall sid1, Effect.sendText sid2 (OutMsg.roomCreated code)])) := by
    simp [onConnection, getOrCreateRoom, hm, hh, hs1, hopen]
  have hl1 : alookup (aset (aset s.socks sid1 ({ ws1 with connOpen := false })) sid2
      ({ role := "host", roomCode := some code, playerId := none, connOpen := true,
         bufferedAmount := buf, isAlive := true } : WS)) sid1
      = some ({ ws1 with connOpen := false }) := by
    rw [alookup_aset_ne _ _ _ _ (Ne.symm hne), alookup_aset_self]
  have hra : alookup (aremove (aset (aset s.socks sid1 ({ ws1 with connOpen := false }))
      sid2 ({ role := "host", roomCode := some code, playerId := none, connOpen := true,
              bufferedAmount := buf, isAlive := true } : WS)) sid1) sid2
      = some ({ role := "host", roomCode := some code, playerId := none, connOpen := true,
                bufferedAmount := buf, isAlive := true } : WS) := by
    rw [alookup_aremove_ne _ _ _ hne, alookup_aset_self]
  simp only [hrole, hrc] at hl1 hra
  refine ⟨?_, ?_, ?_, ?_⟩
  · rw [e1]
    simp
  · rw [e1]
    simp [alookup_aset_self]
  · rw [e1]
    by_cases hcl : room.clients = []
    · left
      simp [onClose, hl1, hrc, hrole, alookup_aset_self, cleanupRoom, hcl,
        alookup_aremove_self]
    · right
      simp [onClose, hl1, hrc, hrole, alookup_aset_self, cleanupRoom, hcl]
  · rw [e1]
    simp [onClose, hl1, hrc, hrole, hra, alookup_aset_self]

/-- Claim C1 witness: from the state where only host 1 holds room
R00M01, a second host connect evicts host 1 and installs host 2; the
subsequent close of host 1 removes the room out from under host 2. -/
theorem host_eviction_amended_witness :
    alookup evictBase.rooms "R00M01" = some evictRoom
  ∧ Effect.closeCall 1 ∈ (onConnection evictBase 2 "host" (some "R00M01") [] "" 0).2
  ∧ (alookup (onConnection evictBase 2 "host" (some "R00M01") [] "" 0).1.rooms
       "R00M01").map Room.host = some (some 2)
  ∧ (alookup (onClose (onConnection evictBase 2 "host" (some "R00M01") [] "" 0).1
       1).1.rooms "R00M01" = none
     ∨ (alookup (onClose (onConnection evictBase 2 "host" (some "R00M01") [] "" 0).1
          1).1.rooms "R00M01").map Room.host = some none) := by
  have h := host_eviction_amended evictBase "R00M01" evictRoom 1 2 evictHostWS [] "" 0
    (by decide) rfl (by decide) rfl rfl rfl (by decide)
  exact ⟨by decide, h.1, h.2.1, h.2.2.1⟩

end SeedRelay
